import Mathlib

/-!
Verification of the KFX container/fragment engine of the calibre KFX Output
plugin against its specification.  The Python sources under `kfxlib/` are
shallowly embedded: byte strings become `List Nat`, Python `str` becomes
`String` (manipulated through its `List Char` data), fallible code returns
`Except`.  Modules of the repository that are not shipped in this tree
(`kfx_container.py`, `kpf_container.py`, `yj_structure.py`, the Ion codecs)
are represented by constants or function parameters modelled from the spec,
each marked as such in its doc comment.
-/

set_option autoImplicit false

namespace KfxOutput

/-! ### Path helpers (CPython `posixpath.splitext` / `posixpath.basename`) -/

/-- Worker for `splitext`, walking the reversed path from its right end.
The first dot found before any slash is the extension dot, provided some
non-dot character precedes it inside the final path component (CPython
treats an all-dots leading run, such as in `.bashrc`, as no extension).
`acc` accumulates, in original order, the characters already passed. -/
def splitextRev : List Char → List Char → Option (List Char × List Char)
  | [], _ => none
  | c :: rest, acc =>
    if c = '/' then none
    else if c = '.' then
      if (rest.takeWhile (· ≠ '/')).any (· ≠ '.') then
        some (rest.reverse, '.' :: acc)
      else none
    else splitextRev rest (c :: acc)

/-- CPython `posixpath.splitext` on `List Char`. -/
def splitext (p : List Char) : List Char × List Char :=
  match splitextRev p.reverse [] with
  | none => (p, [])
  | some pr => pr

/-- `posixpath.splitext` on `String`. -/
def splitextS (s : String) : String × String :=
  (String.mk (splitext s.data).1, String.mk (splitext s.data).2)

/-- The extension part of `posixpath.splitext`. -/
def extOfS (s : String) : String := (splitextS s).2

/-- CPython `posixpath.basename`: everything after the last slash. -/
def basename (s : List Char) : List Char :=
  (s.reverse.takeWhile (· ≠ '/')).reverse

/-- `posixpath.basename` on `String`. -/
def basenameS (s : String) : String := String.mk (basename s.data)

/-- Python `bytes.startswith` / `str.startswith`: is the first list a prefix
of the second? -/
def startswith {α : Type} [DecidableEq α] : List α → List α → Bool
  | [], _ => true
  | _ :: _, [] => false
  | a :: as, b :: bs => if a = b then startswith as bs else false

/-- Python `str.endswith`: is the first list a suffix of the second? -/
def endswith {α : Type} [DecidableEq α] (suf l : List α) : Bool :=
  startswith suf.reverse l.reverse

/-- `str.endswith` on `String`. -/
def endswithS (suf s : String) : Bool := endswith suf.data s.data

/-- One lower-case hexadecimal digit. -/
def hexDigitChar (n : Nat) : Char :=
  if n < 10 then Char.ofNat (48 + n) else Char.ofNat (87 + n)

/-- `"%02x"` rendering of one byte. -/
def byteHex (b : Nat) : String :=
  String.mk [hexDigitChar (b / 16 % 16), hexDigitChar (b % 16)]

/-- `utilities.bytes_to_separated_hex` with the default separator. -/
def bytes_to_separated_hex (data : List Nat) : String :=
  String.intercalate " " (data.map byteHex)

/-! ### Container signatures -/

/-- `utilities.ZIP_SIGNATURE = b"\x50\x4B\x03\x04"`. -/
def ZIP_SIGNATURE : List Nat := [0x50, 0x4B, 0x03, 0x04]

/-- Modelled from the spec: the fixed package-form (KDF) binary signature at
offset 0 (`kpf_container.KpfContainer.KDF_SIGNATURE`; that module is not
under `src/`).  The spec treats it as an opaque constant; any fixed byte
string distinct from the other signatures is a faithful model. -/
def KpfContainer_KDF_SIGNATURE : List Nat := [0x53, 0x51, 0x4C, 0x69, 0x74, 0x65]

/-- Modelled from the spec: the fixed single-file binary container signature
at offset 0 (`kfx_container.KfxContainer.SIGNATURE`; that module is not
under `src/`).  An opaque constant distinct from the other signatures. -/
def KfxContainer_SIGNATURE : List Nat := [0x43, 0x4F, 0x4E, 0x54]

/-- Modelled from the spec: the distinct DRM-protected container signature
at offset 0 (`kfx_container.KfxContainer.DRM_SIGNATURE`; that module is not
under `src/`).  An opaque constant distinct from the other signatures. -/
def KfxContainer_DRM_SIGNATURE : List Nat :=
  [0xEA, 0x44, 0x52, 0x4D, 0x49, 0x4F, 0x4E, 0xEE]

/-- The foreign legacy marker `b"BOOKMOBI"` compared against bytes
`0x3C..0x44` of the input. -/
def BOOKMOBI : List Nat := [0x42, 0x4F, 0x4F, 0x4B, 0x4D, 0x4F, 0x42, 0x49]

/-! ### DataFile and container classification (`yj_book.YJ_Book.get_container`) -/

/-- `utilities.DataFile`: a named byte source.  `zipEntries` is the listing
(name, content) of the archive obtained by `as_ZipFile` when the bytes form
a zip; equality and ordering compare names only in the source, which the
claims use through `name`. -/
structure DataFile where
  name : String
  is_real_file : Bool
  data : List Nat
  zipEntries : List (String × List Nat)
deriving DecidableEq

/-- `DataFile.ext`, derived from the name exactly as in
`utilities.DataFile.__init__` (`os.path.splitext(self.relname)[1]`). -/
def DataFile.ext (df : DataFile) : String := extOfS df.name

/-- The container codec classes `get_container` chooses between. -/
inductive ContainerKind where
  | ionTextContainer
  | zipUnpackContainer
  | kpfContainer
  | kfxContainer
deriving DecidableEq

/-- Errors raised by `get_container`.  `drm` embeds `utilities.KFXDRMError`,
a class distinct from the generic `Exception`s used by the other arms. -/
inductive ContainerError where
  | drm (msg : String)
  | mobi (msg : String)
  | unknown (msg : String)
deriving DecidableEq

/-- The first zip entry whose basename is a book marker (`book.ion` or
`book.kdf`), as scanned by the `infolist` loop in `get_container`. -/
def find_book_marker (entries : List (String × List Nat)) : Option String :=
  (entries.find? fun e => basenameS e.1 == "book.ion" || basenameS e.1 == "book.kdf").map
    (fun e => e.1)

/-- `yj_book.YJ_Book.get_container`, translated clause for clause.  A
successful classification returns `some` codec; `ok none` is the
`ignore_drm` early `return None` used by the metadata path. -/
def get_container (df : DataFile) (ignore_drm : Bool) :
    Except ContainerError (Option ContainerKind) :=
  if df.ext = ".ion" then .ok (some .ionTextContainer)
  else
    match (if startswith ZIP_SIGNATURE df.data then find_book_marker df.zipEntries else none) with
    | some marker =>
      if endswithS ".kdf" marker then .ok (some .kpfContainer)
      else .ok (some .zipUnpackContainer)
    | none =>
      if startswith KpfContainer_KDF_SIGNATURE df.data then .ok (some .kpfContainer)
      else if startswith KfxContainer_SIGNATURE df.data then .ok (some .kfxContainer)
      else if startswith KfxContainer_DRM_SIGNATURE df.data then
        if ignore_drm then .ok none
        else .error (.drm ("Book container " ++ df.name ++ " has DRM and cannot be converted"))
      else if (df.data.drop 60).take 8 = BOOKMOBI then
        .error (.mobi ("File format is MOBI (not KFX) for " ++ df.name))
      else
        .error (.unknown ("Unable to determine KFX container type of " ++ df.name ++ " (" ++
          bytes_to_separated_hex (df.data.take 8) ++ ")"))

/-- Tiers (3)-(6) of the spec's classification precedence, written from the
spec's words: package-form binary signature, then single-file binary
signature, then DRM signature (distinguished error), then the foreign
legacy marker at offset `0x3C` (clear wrong-format error), then the generic
unrecognized-container error carrying the first bytes observed. -/
def classify_spec_binary (df : DataFile) : Except ContainerError (Option ContainerKind) :=
  if startswith KpfContainer_KDF_SIGNATURE df.data then .ok (some .kpfContainer)
  else if startswith KfxContainer_SIGNATURE df.data then .ok (some .kfxContainer)
  else if startswith KfxContainer_DRM_SIGNATURE df.data then
    .error (.drm ("Book container " ++ df.name ++ " has DRM and cannot be converted"))
  else if (df.data.drop 60).take 8 = BOOKMOBI then
    .error (.mobi ("File format is MOBI (not KFX) for " ++ df.name))
  else
    .error (.unknown ("Unable to determine KFX container type of " ++ df.name ++ " (" ++
      bytes_to_separated_hex (df.data.take 8) ++ ")"))

/-- The classification precedence exactly as the spec words it: (1) textual
file extension, (2) zip signature with a contained `book` marker entry,
choosing the package-form codec when the marker is `book.kdf` and the
zip-wrapped codec when it is `book.ion`, then the binary tiers of
`classify_spec_binary`. -/
def classify_spec (df : DataFile) : Except ContainerError (Option ContainerKind) :=
  if df.ext = ".ion" then .ok (some .ionTextContainer)
  else if startswith ZIP_SIGNATURE df.data then
    match find_book_marker df.zipEntries with
    | some marker =>
      if basenameS marker = "book.kdf" then .ok (some .kpfContainer)
      else .ok (some .zipUnpackContainer)
    | none => classify_spec_binary df
  else classify_spec_binary df

/-! ### Ion value and fragment model (`ion.py` / `yj_container.py` data) -/

/-- The Ion value shapes consumed by the code under verification: strings
(covering Python `str` and the `str`-derived `IonSymbol`), binary blobs
(`IonBLOB`), lists and structs.  `null` stands for any other value. -/
inductive IonValue where
  | null
  | str (s : String)
  | blob (data : List Nat)
  | ionList (items : List IonValue)
  | struct (fields : List (String × IonValue))

/-- Python `value.get(key)` on an `IonStruct`; `none` both when the field is
absent and when the value is not a struct (the claims only apply it to
struct values). -/
def IonValue.get (v : IonValue) (key : String) : Option IonValue :=
  match v with
  | .struct fields => fields.lookup key
  | _ => none

/-- `yj_container.YJFragment`: a symbol-tagged record with an optional
identifier and an Ion value. -/
structure YJFragment where
  ftype : String
  fid : Option String
  value : IonValue

/-! ### Zip-wrapped codec, deserialize side (`unpack_container.ZipUnpackContainer`) -/

/-- `ZipUnpackContainer.ADDED_EXT_FLAG_CHAR`. -/
def ADDED_EXT_FLAG_CHAR : String := "."

/-- The resource-id recovery of `ZipUnpackContainer.deserialize`:
`fid = fn[:-1] if ext and fn.endswith(ADDED_EXT_FLAG_CHAR) else filename`. -/
def deserialize_fid (filename : String) : String :=
  if (splitextS filename).2 ≠ "" ∧
      endswithS ADDED_EXT_FLAG_CHAR (splitextS filename).1 = true then
    String.mk (splitextS filename).1.data.dropLast
  else filename

/-- The `fonts` set built by `ZipUnpackContainer.deserialize` from the
`$262` fragments of the `book.ion` entry: the string-valued `$165` fields.
The Python set may additionally hold `None` or non-string values for
malformed fragments; those can never compare equal to the string `fid`
membership is tested with, so only the strings are collected. -/
def font_locations (fragments : List YJFragment) : List String :=
  fragments.filterMap fun fragment =>
    if fragment.ftype = "$262" then
      match fragment.value.get "$165" with
      | some (.str s) => some s
      | _ => none
    else none

/-- The non-directory zip entries other than the fixed-name `book.ion`
entry, in archive order. -/
def non_book_entries (entries : List (String × List Nat)) : List (String × List Nat) :=
  entries.filter fun e => e.1 != "book.ion" && !(endswithS "/" e.1)

/-- `ZipUnpackContainer.deserialize`, parametrized by the textual Ion codec
(`ion_text.IonText` together with `IonTextContainer.deserialize`; those
modules are not under `src/`), which turns the bytes of the `book.ion`
entry into the base fragment list. -/
def zipUnpackDeserialize (ionDes : List Nat → List YJFragment)
    (entries : List (String × List Nat)) : Except String (List YJFragment) :=
  match entries.find? (fun e => e.1 == "book.ion") with
  | none => .error "book.ion file missing from ZipUnpackContainer"
  | some bookEntry =>
    let base := ionDes bookEntry.2
    let fonts := font_locations base
    .ok (base ++ (non_book_entries entries).map fun e =>
      { ftype := if deserialize_fid e.1 ∈ fonts then "$418" else "$417",
        fid := some (deserialize_fid e.1),
        value := .blob e.2 })

/-- The claim's description of the resource fragment built from one
remaining zip entry: exactly one binary-blob fragment, typed with the font
marker precisely when its canonical id is a known font location. -/
def resource_fragment_spec (base : List YJFragment) (e : String × List Nat) : YJFragment :=
  { ftype := if deserialize_fid e.1 ∈ font_locations base then "$418" else "$417",
    fid := some (deserialize_fid e.1),
    value := .blob e.2 }

/-- The claim's "canonical id named as a font-resource location by some
fragment of the book entry". -/
def named_as_font_location (base : List YJFragment) (fid : String) : Prop :=
  ∃ frag ∈ base, frag.ftype = "$262" ∧ frag.value.get "$165" = some (.str fid)

/-- The spec's fixture: the textual codec result for the `book.ion` bytes
`[1]` is a single `$262` fragment naming `fnt.ttf` as a font location. -/
def fixture_ionDes : List Nat → List YJFragment := fun d =>
  if d == [1] then [⟨"$262", none, .struct [("$165", .str "fnt.ttf")]⟩] else []

/-- The spec's fixture archive: a `book.ion` entry plus one image entry and
one font entry. -/
def fixture_entries : List (String × List Nat) :=
  [("book.ion", [1]), ("img.jpg", [2]), ("fnt.ttf", [3])]

/-! ### Byte sniffing tables (`utilities.font_file_ext` / `utilities.image_file_ext`) -/

/-- `utilities.font_file_ext` with the default `""`.  The `.eot` test
compares the one-byte slice `data[34:35]` against the two bytes
`b"\x4c\x50"`, which is transcribed exactly (and can never succeed). -/
def font_file_ext (data : List Nat) : String :=
  if startswith [0x00, 0x01, 0x00, 0x00] data then ".ttf"
  else if startswith [0x4F, 0x54, 0x54, 0x4F] data then ".otf"
  else if startswith [0x77, 0x4F, 0x46, 0x46] data then ".woff"
  else if (data.drop 34).take 1 = [0x4C, 0x50] then ".eot"
  else if startswith [0x00, 0x00, 0x01, 0x00] data then ".dfont"
  else ""

/-- `utilities.image_file_ext` with the default `""`. -/
def image_file_ext (data : List Nat) : String :=
  if startswith [0x47, 0x49, 0x46, 0x38, 0x37, 0x61] data ||
     startswith [0x47, 0x49, 0x46, 0x38, 0x39, 0x61] data then ".gif"
  else if startswith [0xFF, 0xD8, 0xFF] data then ".jpg"
  else if startswith [0x49, 0x49, 0xBC, 0x01] data then ".jxr"
  else if startswith [0x89, 0x50, 0x4E, 0x47, 0x0D, 0x0A, 0x1A, 0x0A] data then ".png"
  else if startswith [0x25, 0x50, 0x44, 0x46] data then ".pdf"
  else if startswith [0x49, 0x49, 0x2A, 0x00] data ||
          startswith [0x4D, 0x4D, 0x00, 0x2A] data then ".tif"
  else ""

/-- `utilities.EXTS_OF_MIMETYPE`. -/
def EXTS_OF_MIMETYPE : List (String × List String) := [
  ("application/azn-plugin-object", [".pobject"]),
  ("application/epub+zip", [".epub"]),
  ("application/font-sfnt", [".ttf", ".otf"]),
  ("application/font-woff", [".woff"]),
  ("application/javascript", [".js", ".jsonp", ".json"]),
  ("application/json", [".json"]),
  ("application/json+ea", [".json"]),
  ("application/json+xray", [".json"]),
  ("application/ocsp-response", [".ocsp"]),
  ("application/octet-stream", [".bin"]),
  ("application/oebps-package+xml", [".opf"]),
  ("application/pdf", [".pdf"]),
  ("application/vnd.adobe-page-template+xml", [".xpgt"]),
  ("application/vnd.amazon.ebook", [".azw"]),
  ("application/vnd.ms-fontobject", [".eot"]),
  ("application/vnd.ms-opentype", [".otf", ".ttf"]),
  ("application/vnd.ms-sync.wbxml", [".xml"]),
  ("application/x-amzn-ion", [".ion"]),
  ("application/x-apnx-sidecar", [".apnx"]),
  ("application/x-bzip", [".bz"]),
  ("application/x-bzip2", [".bz2"]),
  ("application/x-dfont", [".dfont"]),
  ("application/x-dtbncx+xml", [".ncx"]),
  ("application/x-font-otf", [".otf"]),
  ("application/x-font-truetype", [".ttf"]),
  ("application/x-font-ttf", [".ttf"]),
  ("application/x-font-woff", [".woff"]),
  ("application/x-javascript", [".js"]),
  ("application/x-kfx-ebook", [".kfx", ".azw8", ".azw9"]),
  ("application/x-kfx-magazine", [".kfx"]),
  ("application/x-mobi8-ebook", [".azw3"]),
  ("application/x-mobi8-images", [".azw6"]),
  ("application/x-rar-compressed", [".rar"]),
  ("application/x-protobuf", [".bin"]),
  ("application/x-x509-ca-cert", [".der"]),
  ("application/xhtml+xml", [".xhtml", ".html", ".htm"]),
  ("application/xml", [".xml"]),
  ("application/xml+phl", [".xml"]),
  ("application/xml-dtd", [".dtd"]),
  ("application/xslt+xml", [".xslt"]),
  ("application/zip", [".zip"]),
  ("application/zip+mpub", [".zip"]),
  ("audio", [".mp3"]),
  ("audio/mp4", [".mp4"]),
  ("audio/mpeg", [".mp3"]),
  ("figure", [".figure"]),
  ("font/otf", [".otf"]),
  ("font/ttf", [".ttf"]),
  ("font/woff", [".woff"]),
  ("font/woff2", [".woff2"]),
  ("image/bmp", [".bmp"]),
  ("image/gif", [".gif"]),
  ("image/jpeg", [".jpg", ".jpeg"]),
  ("image/jpg", [".jpg", ".jpeg"]),
  ("image/jxr", [".jxr"]),
  ("image/png", [".png"]),
  ("image/svg+xml", [".svg"]),
  ("image/tiff", [".tif", ".tiff"]),
  ("image/vnd.djvu", [".djvu"]),
  ("image/vnd.ms-photo", [".jxr"]),
  ("image/vnd.jxr", [".jxr"]),
  ("image/webp", [".webp"]),
  ("image/x-icon", [".ico"]),
  ("plugin/kfx-html-article", [".html"]),
  ("res/bin", [".bin"]),
  ("res/img", [".png"]),
  ("res/kvg", [".kvg"]),
  ("text/css", [".css"]),
  ("text/csv", [".csv"]),
  ("text/html", [".html", ".htm"]),
  ("text/json", [".json"]),
  ("text/javascript", [".js"]),
  ("text/plain", [".txt"]),
  ("text/xml", [".xml"]),
  ("video", [".mp4"]),
  ("video/mp4", [".mp4"]),
  ("video/ogg", [".ogg"]),
  ("video/webm", [".webm"])]

/-- Modelled from the spec: `yj_structure.SYMBOL_FORMATS`, the
format-symbol-to-extension lookup consulted during extension inference
(`yj_structure.py` is not under `src/`, and the spec's non-goals leave the
symbol catalog open).  A representative table of image format symbols. -/
def SYMBOL_FORMATS : List (String × String) :=
  [("$287", "bmp"), ("$285", "gif"), ("$286", "jpg"), ("$284", "png"), ("$548", "tiff")]

/-! ### Zip-wrapped codec, serialize side (`ZipUnpackContainer.serialize`) -/

/-- The `$165` location string of a metadata fragment value
(`fragment.value.get("$165", "")`). -/
def metadata_location (value : IonValue) : String :=
  match value.get "$165" with
  | some (.str s) => s
  | _ => ""

/-- The format-symbol tier: `"." + SYMBOL_FORMATS[format]` when the `$161`
field is a symbol present in the table, `""` otherwise. -/
def metadata_format_extension (value : IonValue) : String :=
  match value.get "$161" with
  | some (.str f) =>
    match List.lookup f SYMBOL_FORMATS with
    | some x => "." ++ x
    | none => ""
  | _ => ""

/-- The per-fragment extension computation of the `$164` loop in
`ZipUnpackContainer.serialize` (lines 61-74), transcribed clause for
clause: explicit extension of the location; when empty, the format-symbol
lookup; when that yields `""` or the `.pobject` placeholder, the
mime-type lookup (skipping the `figure` pseudo-mime). -/
def resource_metadata_extension (value : IonValue) : String :=
  if extOfS (metadata_location value) = "" then
    if metadata_format_extension value = "" ∨ metadata_format_extension value = ".pobject" then
      match value.get "$162" with
      | some (.str mime) =>
        match List.lookup mime EXTS_OF_MIMETYPE with
        | some exts =>
          if mime ≠ "figure" then exts.headD (metadata_format_extension value)
          else metadata_format_extension value
        | none => metadata_format_extension value
      | _ => metadata_format_extension value
    else metadata_format_extension value
  else extOfS (metadata_location value)

/-- The tile-grid sub-reference locations of a `$164` fragment value
(`fragment.value["$636"]`, rows of locations). -/
def tile_locations (value : IonValue) : List String :=
  match value.get "$636" with
  | some (.ionList rows) =>
    rows.flatMap fun row =>
      match row with
      | .ionList tiles => tiles.filterMap fun t =>
          match t with
          | .str s => some s
          | _ => none
      | _ => []
  | _ => []

/-- Python-dict insertion: the newest binding shadows older ones, and
lookup returns the newest. -/
def dictInsert (m : List (String × String)) (k v : String) : List (String × String) :=
  (k, v) :: m

/-- Python-dict lookup (first, i.e. newest, binding). -/
def dictLookup (m : List (String × String)) (k : String) : Option String :=
  List.lookup k m

/-- The `desired_extension` map built by the first loop of
`ZipUnpackContainer.serialize` over the `$164` fragments in order. -/
def build_desired_extension (fragments : List YJFragment) : List (String × String) :=
  fragments.foldl (fun desired fragment =>
    if fragment.ftype = "$164" then
      let location := metadata_location fragment.value
      let extension := resource_metadata_extension fragment.value
      if extension ≠ "" then
        let desired := if location ≠ "" then dictInsert desired location extension else desired
        (tile_locations fragment.value).foldl (fun d t => dictInsert d t extension) desired
      else desired
    else desired) []

/-- The zip entry name written for one resource fragment by the second loop
of `ZipUnpackContainer.serialize` (lines 92-109): identifiers carrying an
extension are written as-is; otherwise a `$417` fragment consults the
`desired_extension` map and then image sniffing, while a `$418` (font)
fragment only sniffs font bytes; any found extension is appended after the
`ADDED_EXT_FLAG_CHAR` marker. -/
def serialize_entry_name (desired : List (String × String)) (ftype fid : String)
    (data : List Nat) : String :=
  if extOfS fid ≠ "" then fid
  else if ftype = "$417" then
    match dictLookup desired fid with
    | some e => fid ++ ADDED_EXT_FLAG_CHAR ++ e
    | none =>
      if image_file_ext data ≠ "" then fid ++ ADDED_EXT_FLAG_CHAR ++ image_file_ext data
      else fid
  else
    if font_file_ext data ≠ "" then fid ++ ADDED_EXT_FLAG_CHAR ++ font_file_ext data
    else fid

/-- The claim's single fallback chain, as worded: referencing-metadata
extension, then raw-byte sniffing over the image and font magic tables,
else no extension — applied to every resource fragment uniformly. -/
def claim_entry_name (desired : List (String × String)) (fid : String)
    (data : List Nat) : String :=
  if extOfS fid ≠ "" then fid
  else
    match dictLookup desired fid with
    | some e => fid ++ ADDED_EXT_FLAG_CHAR ++ e
    | none =>
      if (if image_file_ext data ≠ "" then image_file_ext data else font_file_ext data) ≠ "" then
        fid ++ ADDED_EXT_FLAG_CHAR ++
          (if image_file_ext data ≠ "" then image_file_ext data else font_file_ext data)
      else fid

/-- The claim's metadata chain tiers in strict precedence: explicit
location extension, else format-symbol lookup, else mime lookup. -/
def claim_metadata_extension (value : IonValue) : String :=
  if extOfS (metadata_location value) ≠ "" then extOfS (metadata_location value)
  else if metadata_format_extension value ≠ "" then metadata_format_extension value
  else
    match value.get "$162" with
    | some (.str mime) =>
      match List.lookup mime EXTS_OF_MIMETYPE with
      | some exts => if mime ≠ "figure" then exts.headD "" else ""
      | none => ""
    | _ => ""

/-! ### C3: idempotent decode (`yj_book.YJ_Book.decode_book`) -/

/-- The orchestrator state touched by `decode_book`: the fragment list, the
book-local symbol table and the container list. -/
structure BookState where
  fragments : List YJFragment
  symtab : List String
  yj_containers : List ContainerKind

/-- `YJ_Book.decode_book`: the guard `if self.fragments: return` is
translated literally; the body after the guard (locating, per-container
deserialization, the fix-up and consistency passes of the modules not under
`src/`, and `final_actions`) is the parameter `body`, modelled from the
spec as an arbitrary fallible state transformer. -/
def decode_book (body : BookState → Except String BookState) (st : BookState) :
    Except String BookState :=
  if st.fragments.isEmpty then body st else .ok st

/-! ### C7: per-file failure policy (`get_metadata` vs `decode_book`) -/

/-- The warning text of `get_metadata`'s per-file handler. -/
def warn_message (name msg : String) : String :=
  "Failed to extract content from " ++ name ++ ": " ++ msg

/-- The full-decode loop of `decode_book` (lines 182-189): every located
file is classified and deserialized in order, with no handler — the first
failure propagates and aborts the whole operation.  `des` abstracts
`get_container` plus `container.deserialize` plus `get_fragments` for one
file. -/
def decode_containers (des : String → Except String (List YJFragment)) :
    List String → Except String (List YJFragment)
  | [] => .ok []
  | f :: rest =>
    match des f with
    | .error e => .error e
    | .ok fl =>
      match decode_containers des rest with
      | .error e => .error e
      | .ok fls => .ok (fl ++ fls)

/-- The scanning loop of `get_metadata` (lines 115-129): a per-file failure
is recorded as a warning and the file is skipped; a `None` container (DRM
skipped under `ignore_drm`) is skipped silently; after a successful file
the loop stops early once metadata and cover are both present. -/
def get_metadata_scan (des : String → Except String (Option (List YJFragment)))
    (has_metadata has_cover_data : List YJFragment → Bool) :
    List String → List YJFragment → List String → List YJFragment × List String
  | [], frags, warns => (frags, warns)
  | f :: rest, frags, warns =>
    match des f with
    | .error e =>
      get_metadata_scan des has_metadata has_cover_data rest frags
        (warns ++ [warn_message f e])
    | .ok none => get_metadata_scan des has_metadata has_cover_data rest frags warns
    | .ok (some fl) =>
      if has_metadata (frags ++ fl) && has_cover_data (frags ++ fl) then (frags ++ fl, warns)
      else get_metadata_scan des has_metadata has_cover_data rest (frags ++ fl) warns

/-- `YJ_Book.get_metadata` after locating: scan all files tolerantly, then
fail only when no container yielded metadata.  The metadata payload is
modelled as the collected fragment list (`YJ_Metadata().get_from_book` of
the missing `yj_metadata.py` reads it). -/
def get_metadata (des : String → Except String (Option (List YJFragment)))
    (has_metadata has_cover_data : List YJFragment → Bool) (files : List String) :
    Except String (List YJFragment) × List String :=
  ((if has_metadata (get_metadata_scan des has_metadata has_cover_data files [] []).1 then
      .ok (get_metadata_scan des has_metadata has_cover_data files [] []).1
    else .error "Failed to locate a KFX container with metadata"),
   (get_metadata_scan des has_metadata has_cover_data files [] []).2)

/-- A concrete tolerant-path deserializer: the file `bad` fails, any other
file yields one fragment. -/
def fixture_des_meta : String → Except String (Option (List YJFragment)) :=
  fun f => if f == "bad" then .error "boom" else .ok (some [⟨"$490", none, .null⟩])

/-- A concrete strict-path deserializer: the file `bad` fails, any other
file yields one fragment. -/
def fixture_des_decode : String → Except String (List YJFragment) :=
  fun f => if f == "bad" then .error "boom" else .ok [⟨"$490", none, .null⟩]

/-- Fragment-list non-emptiness, standing in for `has_metadata` and
`has_cover_data`. -/
def fixture_has_meta : List YJFragment → Bool := fun l => !l.isEmpty

/-! ### C8: locating container files (`yj_book.YJ_Book.locate_book_datafiles`) -/

/-- Python string `<=`: lexicographic comparison by code point, used by
`sorted` through `utilities.DataFile.__lt__`. -/
def pyStrLe : List Char → List Char → Bool
  | [], _ => true
  | _ :: _, [] => false
  | a :: as, b :: bs =>
    if a.toNat < b.toNat then true
    else if b.toNat < a.toNat then false
    else pyStrLe as bs

/-- The filesystem environment `locate_book_datafiles` consults:
`os.path.isdir` and the recursive `os.walk` (as a list of
(directory, filename) pairs in walk order). -/
structure FileSys where
  isdir : String → Bool
  walk : String → List (String × String)

/-- `os.path.join` for the walk results (POSIX form). -/
def joinPath (d f : String) : String := d ++ "/" ++ f

/-- Python `str.replace("\\", "/")`. -/
def replaceBackslashes (s : String) : String :=
  String.mk (s.data.map fun c => if c = '\\' then '/' else c)

/-- `YJ_Book.check_located_file`: keep the file when the extension of its
basename is in the KFX-family set.  `data = none` models a real file
located on disk, `some` bytes a member read out of a zip. -/
def check_located_file (name : String) (data : Option (List Nat)) : List DataFile :=
  if extOfS (basenameS (replaceBackslashes name)) ∈
      [".azw", ".azw8", ".azw9", ".kfx", ".md", ".res", ".yj"] then
    [⟨name, data.isNone, data.getD [], []⟩]
  else []

/-- `YJ_Book.locate_files_from_dir` (without the unused `match` filter). -/
def locate_files_from_dir (fs : FileSys) (directory : String) : List DataFile :=
  (fs.walk directory).flatMap fun df => check_located_file (joinPath df.1 df.2) none

/-- The collection phase of `locate_book_datafiles` (everything before the
empty check and the sort). -/
def locate_collect (fs : FileSys) (df : DataFile) : Except String (List DataFile) :=
  if df.is_real_file && fs.isdir df.name then
    .ok (locate_files_from_dir fs df.name)
  else if df.ext ∈ [".azw8", ".ion", ".kfx", ".kpf"] then
    .ok ([df] ++
      (if df.ext = ".kfx" && df.is_real_file &&
          fs.isdir ((splitextS df.name).1 ++ ".sdr") then
        locate_files_from_dir fs ((splitextS df.name).1 ++ ".sdr")
      else []))
  else if df.ext ∈ [".kfx-zip", ".zip"] then
    .ok (if df.zipEntries.any (fun e => basenameS e.1 == "book.ion" || basenameS e.1 == "book.kdf")
      then [df]
      else df.zipEntries.flatMap fun e => check_located_file e.1 (some e.2))
  else .error "Unknown main file type. Must be azw8, ion, kfx, kfx-zip, kpf, or zip."

/-- `DataFile` ordering: by name only (`utilities.DataFile.__lt__` compares
`self.name < other.name`). -/
def nameLe (a b : DataFile) : Prop := pyStrLe a.name.data b.name.data = true

instance : DecidableRel nameLe :=
  fun a b => inferInstanceAs (Decidable (pyStrLe a.name.data b.name.data = true))

/-- `YJ_Book.locate_book_datafiles`: collect, fail when nothing was found,
and return the located files sorted by name (Python's stable `sorted` over
`DataFile.__lt__`). -/
def locate_book_datafiles (fs : FileSys) (df : DataFile) : Except String (List DataFile) :=
  match locate_collect fs df with
  | .error e => .error e
  | .ok cs =>
    if cs = [] then .error "No KFX containers found. This book is not in KFX format."
    else .ok (List.insertionSort nameLe cs)

/-- The filesystem of the sidecar scenario: only the companion directory
`book.sdr` exists, holding one resource file. -/
def sidecarFS : FileSys :=
  ⟨fun s => s == "book.sdr", fun s => if s == "book.sdr" then [("book.sdr", "extra.res")] else []⟩

/-- The main datafile of the amended sidecar scenario. -/
def mainKfx : DataFile := ⟨"book.kfx", true, [], []⟩

/-- The sidecar resource file located by the scenario. -/
def extraRes : DataFile := ⟨"book.sdr/extra.res", true, [], []⟩

/-! ### C9: temp-file cleanup across the conversion entry points -/

/-- Whether `utilities.temp_file_cleanup` has run during the current call
(`final_actions` invokes it together with the symbol-table report and the
unicode-cache flush). -/
structure TempState where
  cleaned : Bool
deriving DecidableEq

/-- `YJ_Book.final_actions`. -/
def final_actions (s : TempState) : TempState := { s with cleaned := true }

/-- The control flow of `YJ_Book.decode_book` relevant to cleanup: an early
return when fragments already exist (no `final_actions`), otherwise the
decode pipeline (locate, per-container deserialize, the fix-up/consistency
passes of the modules not under `src/`), whose outcome is the parameter
`decode_steps`; `final_actions` runs only after the pipeline completes —
there is no `try`/`finally`. -/
def decode_book_flow (frags_empty : Bool) (decode_steps : Except String Unit)
    (s : TempState) : Except String Unit × TempState :=
  if frags_empty then
    match decode_steps with
    | .error e => (.error e, s)
    | .ok _ => (.ok (), final_actions s)
  else (.ok (), s)

/-- `YJ_Book.convert_to_single_kfx`: decode, refuse dictionaries and
pre-publication KPF, serialize (outcome `serialize_result`), then
`final_actions` before returning the bytes. -/
def convert_to_single_kfx (frags_empty : Bool) (decode_steps : Except String Unit)
    (is_dictionary is_kpf_prepub : Bool) (serialize_result : Except String (List Nat))
    (s : TempState) : Except String (List Nat) × TempState :=
  match decode_book_flow frags_empty decode_steps s with
  | (.error e, s1) => (.error e, s1)
  | (.ok _, s1) =>
    if is_dictionary then (.error "Cannot serialize dictionary as KFX container", s1)
    else if is_kpf_prepub then (.error "Cannot serialize KPF as KFX container without fix-up", s1)
    else
      match serialize_result with
      | .error e => (.error e, s1)
      | .ok r => (.ok r, final_actions s1)

/-- `YJ_Book.convert_to_zip_unpack`: decode, serialize, `final_actions`. -/
def convert_to_zip_unpack (frags_empty : Bool) (decode_steps : Except String Unit)
    (serialize_result : Except String (List Nat)) (s : TempState) :
    Except String (List Nat) × TempState :=
  match decode_book_flow frags_empty decode_steps s with
  | (.error e, s1) => (.error e, s1)
  | (.ok _, s1) =>
    match serialize_result with
    | .error e => (.error e, s1)
    | .ok r => (.ok r, final_actions s1)

/-- `YJ_Book.convert_to_epub`: decode, build the EPUB (outcome
`epub_result`), `final_actions`. -/
def convert_to_epub (frags_empty : Bool) (decode_steps : Except String Unit)
    (epub_result : Except String (List Nat)) (s : TempState) :
    Except String (List Nat) × TempState :=
  match decode_book_flow frags_empty decode_steps s with
  | (.error e, s1) => (.error e, s1)
  | (.ok _, s1) =>
    match epub_result with
    | .error e => (.error e, s1)
    | .ok r => (.ok r, final_actions s1)

/-! ### C10: logger injection (`message_logging.py`) -/

/-- A logger object as seen by the message-logging module: either the
standard-library `logging` module (the default) or an injected logger. -/
inductive Logger where
  | loggingModule
  | custom (id : Nat)
deriving DecidableEq

/-- The thread-local configuration object: the `logger` attribute is either
absent (`none`) or present with a value that may itself be Python `None`
(`some none`). -/
abbrev ThreadLocalCfg := Option (Option Logger)

/-- The test `log is not None` in `set_logger`, where `log` is the
module-level `LogCurrent` instance created at import time: an object that
is never Python `None`, so the test is constantly true. -/
def log_is_not_none : Bool := true

/-- `message_logging.set_logger`, transcribed with its actual condition
`if log is not None:` (not `logger`): the attribute is always assigned
(possibly to `None`), and the `del thread_local_cfg.logger` branch is
dead. -/
def set_logger (logger : Option Logger) (_cfg : ThreadLocalCfg) : ThreadLocalCfg :=
  if log_is_not_none then some logger
  else none

/-- `message_logging.get_current_logger`:
`getattr(thread_local_cfg, "logger", logging)` — the default applies only
when the attribute is absent, not when it holds `None`. -/
def get_current_logger (cfg : ThreadLocalCfg) : Option Logger :=
  match cfg with
  | some v => v
  | none => some .loggingModule

/-! ### Theorems -/

/-! ### Helper lemmas about suffixes and the marker search -/

theorem startswith_append_left {α : Type} [DecidableEq α] :
    ∀ (p a b : List α), startswith p a = true → startswith p (a ++ b) = true := by
  intro p
  induction p with
  | nil => intro a b _; rfl
  | cons x xs ih =>
    intro a b h
    cases a with
    | nil => simp [startswith] at h
    | cons y ys =>
      rw [List.cons_append]
      rw [startswith] at h ⊢
      by_cases hxy : x = y
      · rw [if_pos hxy] at h ⊢
        exact ih ys b h
      · rw [if_neg hxy] at h
        exact absurd h (by simp)

/-- Every string ends with its own basename. -/
theorem data_eq_append_basename (s : String) :
    s.data = (s.data.reverse.dropWhile (· ≠ '/')).reverse ++ (basenameS s).data := by
  have h := List.takeWhile_append_dropWhile (p := fun c => decide (c ≠ '/')) (l := s.data.reverse)
  have h2 := congrArg List.reverse h
  rw [List.reverse_append, List.reverse_reverse] at h2
  simpa [basenameS, basename] using h2.symm

theorem marker_basename (entries : List (String × List Nat)) (m : String)
    (h : find_book_marker entries = some m) :
    basenameS m = "book.ion" ∨ basenameS m = "book.kdf" := by
  unfold find_book_marker at h
  cases hf : entries.find? fun e => basenameS e.1 == "book.ion" || basenameS e.1 == "book.kdf" with
  | none => rw [hf] at h; simp at h
  | some e =>
    rw [hf] at h
    have hp := List.find?_some hf
    simp only [Bool.or_eq_true, beq_iff_eq] at hp
    simp only [Option.map_some'] at h
    injection h with h1
    rw [← h1]
    exact hp

/-- For a marker entry the code's `endswith(".kdf")` test agrees with the
spec's "the marker is `book.kdf`" phrasing. -/
theorem marker_kdf_iff (m : String)
    (hb : basenameS m = "book.ion" ∨ basenameS m = "book.kdf") :
    endswithS ".kdf" m = true ↔ basenameS m = "book.kdf" := by
  have hsplit := data_eq_append_basename m
  cases hb with
  | inl hion =>
    rw [hion] at hsplit
    constructor
    · intro hend
      exfalso
      rw [endswithS, endswith] at hend
      rw [hsplit, List.reverse_append] at hend
      have hrev1 : ("book.ion".data).reverse = ['n', 'o', 'i', '.', 'k', 'o', 'o', 'b'] := by
        decide
      have hrev2 : (".kdf".data).reverse = ['f', 'd', 'k', '.'] := by decide
      rw [hrev1, hrev2] at hend
      simp [startswith, List.cons_append] at hend
    · intro hkdf
      rw [hion] at hkdf
      exact absurd hkdf (by decide)
  | inr hkdf =>
    rw [hkdf] at hsplit
    constructor
    · intro _; exact hkdf
    · intro _
      rw [endswithS, endswith]
      rw [hsplit, List.reverse_append]
      apply startswith_append_left
      decide

/-! ### C1: classification precedence -/

/-- C1: container classification examines the input exactly in the spec's
precedence order: textual extension first, then zip signature with the
`book` marker choosing package vs zip-wrapped form, then the package-form
binary signature, the single-file binary signature, the DRM signature
(distinguished error), the `BOOKMOBI` marker at offset `0x3C` (wrong-format
error), and finally the generic unrecognized-container error carrying the
first observed bytes: `get_container` on the decode path coincides with the
classifier transcribed from the spec's words. -/
theorem C1_container_classification (df : DataFile) :
    get_container df false = classify_spec df := by
  unfold get_container classify_spec
  by_cases h1 : df.ext = ".ion"
  · rw [if_pos h1, if_pos h1]
  · rw [if_neg h1, if_neg h1]
    by_cases h2 : startswith ZIP_SIGNATURE df.data = true
    · rw [if_pos h2, if_pos h2]
      cases hm : find_book_marker df.zipEntries with
      | none =>
        unfold classify_spec_binary
        rfl
      | some m =>
        have hb := marker_basename df.zipEntries m hm
        have hiff := marker_kdf_iff m hb
        simp only [hiff]
    · rw [if_neg h2, if_neg h2]
      unfold classify_spec_binary
      rfl

/-! ### C2: DRM classification -/

/-- From a DRM-signature hypothesis the input starts with the byte `0xEA`. -/
theorem drm_data_shape (data : List Nat)
    (h : startswith KfxContainer_DRM_SIGNATURE data = true) :
    ∃ rest, data = 0xEA :: rest := by
  cases data with
  | nil => simp [KfxContainer_DRM_SIGNATURE, startswith] at h
  | cons b t =>
    refine ⟨t, ?_⟩
    rw [KfxContainer_DRM_SIGNATURE, startswith] at h
    by_cases hb : (0xEA : Nat) = b
    · rw [← hb]
    · rw [if_neg hb] at h
      exact absurd h (by simp)

/-- C2 counterexample: on the metadata-extraction path (`ignore_drm=True`)
a datafile whose bytes start with the DRM signature is classified to `None`
(the file is silently skipped), not to the distinguished DRM error the
claim promises for every invocation. -/
theorem C2_counterexample :
    get_container ⟨"book.kfx", true, KfxContainer_DRM_SIGNATURE, []⟩ true = .ok none := by
  rfl

/-- C2 (amended): for every datafile whose extension is not the textual
`.ion` form and whose bytes start with the DRM signature, classification on
the decode path raises the distinguished `KFXDRMError` and never yields a
codec to parse with, while on the metadata-extraction path (`ignore_drm`)
it returns no container, so the data is never parsed on either path. -/
theorem C2_drm_classification (df : DataFile)
    (h1 : df.ext ≠ ".ion")
    (h2 : startswith KfxContainer_DRM_SIGNATURE df.data = true) :
    get_container df false =
      .error (.drm ("Book container " ++ df.name ++ " has DRM and cannot be converted"))
    ∧ get_container df true = .ok none := by
  obtain ⟨rest, hd⟩ := drm_data_shape df.data h2
  have hzip : startswith ZIP_SIGNATURE df.data = false := by
    rw [hd]; simp [ZIP_SIGNATURE, startswith]
  have hkdf : startswith KpfContainer_KDF_SIGNATURE df.data = false := by
    rw [hd]; simp [KpfContainer_KDF_SIGNATURE, startswith]
  have hkfx : startswith KfxContainer_SIGNATURE df.data = false := by
    rw [hd]; simp [KfxContainer_SIGNATURE, startswith]
  constructor <;>
    simp [get_container, h1, hzip, hkdf, hkfx, h2]

/-- C2 witness: a concrete non-`.ion` datafile carrying the DRM signature,
run through both classification paths. -/
theorem C2_drm_classification_witness :
    get_container ⟨"drm.kfx", true, KfxContainer_DRM_SIGNATURE, []⟩ false =
      .error (.drm "Book container drm.kfx has DRM and cannot be converted")
    ∧ get_container ⟨"drm.kfx", true, KfxContainer_DRM_SIGNATURE, []⟩ true = .ok none :=
  C2_drm_classification ⟨"drm.kfx", true, KfxContainer_DRM_SIGNATURE, []⟩
    (by decide) (by decide)

theorem mem_font_locations (base : List YJFragment) (s : String) :
    s ∈ font_locations base ↔ named_as_font_location base s := by
  unfold font_locations named_as_font_location
  rw [List.mem_filterMap]
  constructor
  · rintro ⟨frag, hmem, hf⟩
    refine ⟨frag, hmem, ?_⟩
    by_cases ht : frag.ftype = "$262"
    · rw [if_pos ht] at hf
      refine ⟨ht, ?_⟩
      cases hg : frag.value.get "$165" with
      | none => rw [hg] at hf; simp at hf
      | some v =>
        rw [hg] at hf
        cases v with
        | str t => simp at hf; rw [hf]
        | null => simp at hf
        | blob d => simp at hf
        | ionList l => simp at hf
        | struct fs => simp at hf
    · rw [if_neg ht] at hf
      exact absurd hf (by simp)
  · rintro ⟨frag, hmem, ht, hg⟩
    exact ⟨frag, hmem, by rw [if_pos ht, hg]⟩

/-! ### C6: zip-wrapped deserialization -/

/-- C6: when the archive holds a `book.ion` entry, deserialization yields
the textual base fragments followed by exactly one binary-blob resource
fragment per remaining non-directory entry, and such a fragment carries the
font marker `$418` if and only if its canonical id is named as a font
location by some `$262` fragment of the book entry (and the generic marker
`$417` otherwise). -/
theorem C6_zip_deserialize (ionDes : List Nat → List YJFragment)
    (entries : List (String × List Nat)) (bookEntry : String × List Nat)
    (hfind : entries.find? (fun e => e.1 == "book.ion") = some bookEntry) :
    zipUnpackDeserialize ionDes entries =
      .ok (ionDes bookEntry.2 ++
        (non_book_entries entries).map (resource_fragment_spec (ionDes bookEntry.2)))
    ∧ ∀ e ∈ non_book_entries entries,
        ((resource_fragment_spec (ionDes bookEntry.2) e).ftype = "$418" ↔
          named_as_font_location (ionDes bookEntry.2) (deserialize_fid e.1)) := by
  constructor
  · unfold zipUnpackDeserialize
    rw [hfind]
    rfl
  · intro e _
    unfold resource_fragment_spec
    by_cases hmem : deserialize_fid e.1 ∈ font_locations (ionDes bookEntry.2)
    · rw [if_pos hmem]
      simp only [true_iff]
      exact (mem_font_locations _ _).mp hmem
    · rw [if_neg hmem]
      simp only []
      constructor
      · intro h; exact absurd h (by decide)
      · intro h; exact absurd ((mem_font_locations _ _).mpr h) hmem

/-- C6 witness: the fixture deserializes to exactly 3 fragments, one
book-level plus two resources, with the font entry tagged `$418` and the
image entry tagged `$417`. -/
theorem C6_zip_deserialize_witness :
    zipUnpackDeserialize fixture_ionDes fixture_entries =
      .ok [⟨"$262", none, .struct [("$165", .str "fnt.ttf")]⟩,
           ⟨"$417", some "img.jpg", .blob [2]⟩,
           ⟨"$418", some "fnt.ttf", .blob [3]⟩] :=
  (C6_zip_deserialize fixture_ionDes fixture_entries ("book.ion", [1]) rfl).1

/-! ### C4: extension inference chain -/

theorem lookup_val_mem {β : Type} (a : String) (b : β) :
    ∀ l : List (String × β), List.lookup a l = some b → b ∈ l.map Prod.snd := by
  intro l
  induction l with
  | nil => intro h; simp [List.lookup] at h
  | cons p ps ih =>
    intro h
    obtain ⟨k, v⟩ := p
    rw [List.lookup] at h
    cases hk : a == k
    · rw [hk] at h
      exact List.mem_cons_of_mem _ (ih h)
    · rw [hk] at h
      injection h with hvb
      rw [← hvb]
      exact List.mem_cons_self _ _

/-- No format symbol maps to the `.pobject` placeholder in the modelled
table, so the code's `extension in ["", ".pobject"]` re-check never fires
on a non-empty format tier result. -/
theorem metadata_format_extension_not_pobject (value : IonValue) :
    metadata_format_extension value ≠ ".pobject" := by
  unfold metadata_format_extension
  cases hg : value.get "$161" with
  | none => exact (show ("" : String) ≠ ".pobject" by decide)
  | some v =>
    cases v with
    | str f =>
      show (match List.lookup f SYMBOL_FORMATS with
        | some x => "." ++ x
        | none => "") ≠ ".pobject"
      cases hl : List.lookup f SYMBOL_FORMATS with
      | none => exact (show ("" : String) ≠ ".pobject" by decide)
      | some x =>
        show "." ++ x ≠ ".pobject"
        have hm := lookup_val_mem f x SYMBOL_FORMATS hl
        simp only [SYMBOL_FORMATS, List.map, List.mem_cons, List.not_mem_nil, or_false] at hm
        rcases hm with h1 | h1 | h1 | h1 | h1 <;> subst h1 <;> decide
    | null => exact (show ("" : String) ≠ ".pobject" by decide)
    | blob d => exact (show ("" : String) ≠ ".pobject" by decide)
    | ionList l => exact (show ("" : String) ≠ ".pobject" by decide)
    | struct fs => exact (show ("" : String) ≠ ".pobject" by decide)

/-- C4 counterexample: a font resource fragment whose extensionless id is
assigned `.woff` by the referencing metadata chain (mime tier) is
nevertheless written with the font-sniffed `.ttf` extension — the code
ignores the metadata/mime tiers for font fragments, contradicting the
claim's uniform fallback chain over every resource fragment. -/
theorem C4_counterexample :
    serialize_entry_name
        (build_desired_extension
          [⟨"$164", none, .struct [("$165", .str "fontres"), ("$162", .str "font/woff")]⟩])
        "$418" "fontres" [0x00, 0x01, 0x00, 0x00] = "fontres..ttf"
    ∧ claim_entry_name
        (build_desired_extension
          [⟨"$164", none, .struct [("$165", .str "fontres"), ("$162", .str "font/woff")]⟩])
        "fontres" [0x00, 0x01, 0x00, 0x00] = "fontres..woff" := by
  constructor <;> rfl

/-- C4 (amended): the metadata chain computes, per referencing `$164`
fragment, explicit location extension → format-symbol lookup → mime lookup
(the claim's strict tiers); on write, a generic `$417` resource with an
extensionless id takes the metadata-assigned extension, else image-byte
sniffing, else no extension — in particular unsniffable bytes with no
metadata entry give no extension — while a `$418` font resource uses
font-byte sniffing only. -/
theorem C4_extension_chain :
    (∀ value, resource_metadata_extension value = claim_metadata_extension value)
    ∧ (∀ desired fid data e, extOfS fid = "" → dictLookup desired fid = some e →
        serialize_entry_name desired "$417" fid data = fid ++ ADDED_EXT_FLAG_CHAR ++ e)
    ∧ (∀ desired fid data, extOfS fid = "" → dictLookup desired fid = none →
        image_file_ext data ≠ "" →
        serialize_entry_name desired "$417" fid data =
          fid ++ ADDED_EXT_FLAG_CHAR ++ image_file_ext data)
    ∧ (∀ desired fid data, extOfS fid = "" → dictLookup desired fid = none →
        image_file_ext data = "" → serialize_entry_name desired "$417" fid data = fid)
    ∧ (∀ desired fid data, extOfS fid = "" →
        serialize_entry_name desired "$418" fid data =
          (if font_file_ext data ≠ "" then fid ++ ADDED_EXT_FLAG_CHAR ++ font_file_ext data
           else fid))
    ∧ serialize_entry_name [] "$417" "res" [0xFF, 0xD8, 0xFF, 0xE0] = "res..jpg"
    ∧ serialize_entry_name [] "$417" "res" [0x00] = "res" := by
  refine ⟨?_, ?_, ?_, ?_, ?_, ?_, ?_⟩
  · intro value
    unfold resource_metadata_extension claim_metadata_extension
    by_cases hex : extOfS (metadata_location value) = ""
    · by_cases hf : metadata_format_extension value = ""
      · simp [hex, hf]
      · have hp := metadata_format_extension_not_pobject value
        simp [hex, hf, hp]
    · simp [hex]
  · intro desired fid data e hext hlk
    unfold serialize_entry_name
    simp [hext, hlk]
  · intro desired fid data hext hlk him
    unfold serialize_entry_name
    simp [hext, hlk, him]
  · intro desired fid data hext hlk him
    unfold serialize_entry_name
    simp [hext, hlk, him]
  · intro desired fid data hext
    unfold serialize_entry_name
    simp [hext]
  · rfl
  · rfl

/-! ### C5: added-extension suffix round trip -/

theorem any_reverse (l : List Char) (p : Char → Bool) : l.reverse.any p = l.any p := by
  induction l with
  | nil => rfl
  | cons c cs ih => simp [List.reverse_cons, List.any_append, ih, Bool.or_comm]

/-- `splitextRev` walks unchanged over characters that are neither dots nor
slashes, moving them into the accumulator. -/
theorem splitextRev_skip (l : List Char) :
    ∀ (t acc : List Char), (∀ c ∈ l, c ≠ '.' ∧ c ≠ '/') →
      splitextRev (l ++ t) acc = splitextRev t (l.reverse ++ acc) := by
  induction l with
  | nil => intro t acc _; simp
  | cons c cs ih =>
    intro t acc h
    have hc := h c (List.mem_cons_self c cs)
    have hstep : splitextRev (c :: (cs ++ t)) acc = splitextRev (cs ++ t) (c :: acc) := by
      show (if c = '/' then none
        else if c = '.' then
          if ((cs ++ t).takeWhile (· ≠ '/')).any (· ≠ '.') then
            some ((cs ++ t).reverse, '.' :: acc)
          else none
        else splitextRev (cs ++ t) (c :: acc)) = splitextRev (cs ++ t) (c :: acc)
      rw [if_neg hc.2, if_neg hc.1]
    rw [List.cons_append, hstep, ih t (c :: acc) (fun x hx => h x (List.mem_cons_of_mem c hx))]
    simp [List.reverse_cons, List.append_assoc]

/-- At a dot whose basename part holds a non-dot character, `splitextRev`
splits: accumulated characters become the extension (after the dot). -/
theorem splitextRev_flag (t acc : List Char)
    (h : (t.takeWhile (· ≠ '/')).any (· ≠ '.') = true) :
    splitextRev ('.' :: t) acc = some (t.reverse, '.' :: acc) := by
  show (if ('.' : Char) = '/' then none
    else if ('.' : Char) = '.' then
      if (t.takeWhile (· ≠ '/')).any (· ≠ '.') then some (t.reverse, '.' :: acc) else none
    else splitextRev t ('.' :: acc)) = some (t.reverse, '.' :: acc)
  rw [if_neg (by decide : ¬('.' : Char) = '/'), if_pos (rfl : ('.' : Char) = '.'), if_pos h]

/-- C5 counterexample: the identifier `"."` has no extension, yet the
appended suffix cannot be stripped back (its basename is all dots, so
`posixpath.splitext` sees no extension in the written entry name), and
deserialization does not recover the id — refuting the claim's universal
round trip. -/
theorem C5_counterexample :
    extOfS "." = ""
    ∧ deserialize_fid (serialize_entry_name [] "$417" "." [0xFF, 0xD8, 0xFF]) ≠ "." := by
  constructor
  · rfl
  · decide

/-- C5 (amended): for every resource identifier without an extension whose
final path component holds at least one non-dot character, appending the
reserved flag character plus an inferred extension (a dot followed by a
non-empty run of non-dot, non-slash characters) round-trips: deserialization
strips exactly that suffix and recovers the canonical id; and an entry name
without an extension (hence without the marker) keeps its full name as id. -/
theorem C5_suffix_roundtrip :
    (∀ (fid r : String),
        extOfS fid = "" →
        (basenameS fid).data.any (· ≠ '.') = true →
        r.data ≠ [] →
        (∀ c ∈ r.data, c ≠ '.' ∧ c ≠ '/') →
        deserialize_fid (fid ++ ADDED_EXT_FLAG_CHAR ++ ("." ++ r)) = fid)
    ∧ (∀ name : String, extOfS name = "" → deserialize_fid name = name) := by
  constructor
  · intro fid r _ hbase _ hchars
    have hconds : ∀ c ∈ r.data.reverse, c ≠ '.' ∧ c ≠ '/' := by
      intro c hc
      exact hchars c (List.mem_reverse.mp hc)
    have hb0 : ((fid.data.reverse.takeWhile (· ≠ '/')).reverse).any (· ≠ '.') = true := hbase
    rw [any_reverse] at hb0
    have hcond : ((('.' :: fid.data.reverse)).takeWhile (· ≠ '/')).any (· ≠ '.') = true := by
      rw [List.takeWhile_cons_of_pos (by decide), List.any_cons, hb0]
      simp
    have hdata : (fid ++ ADDED_EXT_FLAG_CHAR ++ ("." ++ r)).data
        = fid.data ++ ('.' :: '.' :: r.data) := by
      show (fid.data ++ ['.']) ++ ('.' :: r.data) = fid.data ++ ('.' :: '.' :: r.data)
      simp
    have hsplit : splitext ((fid ++ ADDED_EXT_FLAG_CHAR ++ ("." ++ r)).data)
        = (fid.data ++ ['.'], '.' :: r.data) := by
      unfold splitext
      rw [hdata]
      have hrev : (fid.data ++ ('.' :: '.' :: r.data)).reverse
          = r.data.reverse ++ ('.' :: ('.' :: fid.data.reverse)) := by
        simp [List.reverse_append, List.reverse_cons, List.append_assoc]
      rw [hrev]
      rw [splitextRev_skip r.data.reverse ('.' :: ('.' :: fid.data.reverse)) [] hconds]
      rw [List.reverse_reverse, List.append_nil]
      rw [splitextRev_flag ('.' :: fid.data.reverse) r.data hcond]
      simp [List.reverse_cons, List.reverse_reverse]
    have hsS : splitextS (fid ++ ADDED_EXT_FLAG_CHAR ++ ("." ++ r))
        = (String.mk (fid.data ++ ['.']), String.mk ('.' :: r.data)) := by
      unfold splitextS
      rw [hsplit]
    have hne : String.mk ('.' :: r.data) ≠ "" := by
      intro h
      have h2 : ('.' :: r.data) = ([] : List Char) := congrArg String.data h
      exact absurd h2 (by simp)
    have hflag : ADDED_EXT_FLAG_CHAR.data.reverse = ['.'] := by decide
    have hend : endswithS ADDED_EXT_FLAG_CHAR (String.mk (fid.data ++ ['.'])) = true := by
      show startswith (ADDED_EXT_FLAG_CHAR.data.reverse) ((fid.data ++ ['.']).reverse) = true
      rw [hflag, List.reverse_append]
      simp [startswith]
    unfold deserialize_fid
    rw [hsS]
    rw [if_pos ⟨hne, hend⟩]
    show String.mk ((fid.data ++ ['.']).dropLast) = fid
    rw [List.dropLast_concat]
  · intro name h
    have hcnot : ¬((splitextS name).2 ≠ "" ∧
        endswithS ADDED_EXT_FLAG_CHAR (splitextS name).1 = true) := fun hc => hc.1 h
    unfold deserialize_fid
    rw [if_neg hcnot]

/-- C5 witness: the suffixed entry `img..jpg` deserializes back to `img`,
and the unsuffixed entry `plain` keeps its name. -/
theorem C5_suffix_roundtrip_witness :
    deserialize_fid ("img" ++ ADDED_EXT_FLAG_CHAR ++ ("." ++ "jpg")) = "img"
    ∧ deserialize_fid "plain" = "plain" :=
  ⟨C5_suffix_roundtrip.1 "img" "jpg" (by decide) (by decide) (by decide) (by decide),
   C5_suffix_roundtrip.2 "plain" (by decide)⟩

/-- C3: decode is idempotent — whenever a call to `decode_book` returns a
decoded state with at least one fragment (the code's truthiness test for
"already decoded"), a second call is a complete no-op: it returns the very
same state, leaving the fragment list, symbol table and container list
unchanged. -/
theorem C3_decode_idempotent (body : BookState → Except String BookState)
    (st st2 : BookState)
    (hdec : decode_book body st = .ok st2) (hne : st2.fragments ≠ []) :
    decode_book body st2 = .ok st2 := by
  have hfalse : st2.fragments.isEmpty = false := by
    cases hfr : st2.fragments with
    | nil => exact absurd hfr hne
    | cons f fs => rfl
  unfold decode_book
  rw [hfalse]
  exact hdec.symm.trans hdec

/-- C3 witness: a concrete decode body that produces one fragment; the
second call leaves the produced state untouched. -/
theorem C3_decode_idempotent_witness :
    decode_book (fun st => .ok { st with fragments := [⟨"$490", none, .null⟩] })
      ⟨[⟨"$490", none, .null⟩], [], []⟩ = .ok ⟨[⟨"$490", none, .null⟩], [], []⟩ :=
  C3_decode_idempotent (fun st => .ok { st with fragments := [⟨"$490", none, .null⟩] })
    ⟨[], [], []⟩ ⟨[⟨"$490", none, .null⟩], [], []⟩ rfl (by simp)

/-- C7: the asymmetry of per-file failure handling — the full-decode loop
aborts as soon as any located file fails to deserialize, while the
metadata-extraction path never propagates a per-file error: it records a
warning and skips the file, fails only with its own generic error when no
container yields metadata, and succeeds whenever the collected fragments
carry metadata. -/
theorem C7_error_policy :
    (∀ (des : String → Except String (List YJFragment)) (files : List String) (f e : String),
        f ∈ files → des f = .error e →
        ∃ e2, decode_containers des files = .error e2)
    ∧ (∀ des hasMeta hasCover (files : List String) (s : String),
        (get_metadata des hasMeta hasCover files).1 = .error s →
        s = "Failed to locate a KFX container with metadata")
    ∧ (∀ des hasMeta hasCover (files : List String),
        hasMeta (get_metadata_scan des hasMeta hasCover files [] []).1 = true →
        (get_metadata des hasMeta hasCover files).1 =
          .ok (get_metadata_scan des hasMeta hasCover files [] []).1)
    ∧ (∀ des hasMeta hasCover (f e : String) (rest : List String)
          (frags : List YJFragment) (warns : List String),
        des f = .error e →
        get_metadata_scan des hasMeta hasCover (f :: rest) frags warns =
          get_metadata_scan des hasMeta hasCover rest frags
            (warns ++ [warn_message f e])) := by
  refine ⟨?_, ?_, ?_, ?_⟩
  · intro des files
    induction files with
    | nil => intro f e hf _; exact absurd hf (List.not_mem_nil f)
    | cons g rest ih =>
      intro f e hf hdes
      cases hg : des g with
      | error e2 =>
        refine ⟨e2, ?_⟩
        show (match des g with
          | .error e => .error e
          | .ok fl =>
            match decode_containers des rest with
            | .error e => .error e
            | .ok fls => .ok (fl ++ fls)) = Except.error e2
        rw [hg]
      | ok fl =>
        rcases List.mem_cons.mp hf with h1 | h1
        · subst h1
          rw [hdes] at hg
          cases hg
        · obtain ⟨e2, h2⟩ := ih f e h1 hdes
          refine ⟨e2, ?_⟩
          show (match des g with
            | .error e => .error e
            | .ok fl =>
              match decode_containers des rest with
              | .error e => .error e
              | .ok fls => .ok (fl ++ fls)) = Except.error e2
          rw [hg, h2]
  · intro des hasMeta hasCover files s h
    have hdef : (get_metadata des hasMeta hasCover files).1
        = (if hasMeta (get_metadata_scan des hasMeta hasCover files [] []).1 then
            Except.ok (get_metadata_scan des hasMeta hasCover files [] []).1
          else Except.error "Failed to locate a KFX container with metadata") := rfl
    rw [hdef] at h
    by_cases hm : hasMeta (get_metadata_scan des hasMeta hasCover files [] []).1 = true
    · rw [if_pos hm] at h
      exact absurd h (by simp)
    · rw [if_neg hm] at h
      injection h with h1
      exact h1.symm
  · intro des hasMeta hasCover files hm
    have hdef : (get_metadata des hasMeta hasCover files).1
        = (if hasMeta (get_metadata_scan des hasMeta hasCover files [] []).1 then
            Except.ok (get_metadata_scan des hasMeta hasCover files [] []).1
          else Except.error "Failed to locate a KFX container with metadata") := rfl
    rw [hdef, if_pos hm]
  · intro des hasMeta hasCover f e rest frags warns hdes
    show (match des f with
      | .error e =>
        get_metadata_scan des hasMeta hasCover rest frags (warns ++ [warn_message f e])
      | .ok none => get_metadata_scan des hasMeta hasCover rest frags warns
      | .ok (some fl) =>
        if hasMeta (frags ++ fl) && hasCover (frags ++ fl) then (frags ++ fl, warns)
        else get_metadata_scan des hasMeta hasCover rest (frags ++ fl) warns) = _
    rw [hdes]

/-- C7 witness: with one failing file and one good file, the full decode
aborts with an error while the metadata path succeeds. -/
theorem C7_error_policy_witness :
    (∃ e2, decode_containers fixture_des_decode ["bad", "good"] = .error e2)
    ∧ (get_metadata fixture_des_meta fixture_has_meta fixture_has_meta ["bad", "good"]).1 =
        .ok [⟨"$490", none, .null⟩] :=
  ⟨C7_error_policy.1 fixture_des_decode ["bad", "good"] "bad" "boom" (by simp) rfl,
   C7_error_policy.2.2.1 fixture_des_meta fixture_has_meta fixture_has_meta ["bad", "good"] rfl⟩

theorem pyStrLe_total : ∀ x y : List Char, pyStrLe x y = true ∨ pyStrLe y x = true := by
  intro x
  induction x with
  | nil => intro y; left; rfl
  | cons a as ih =>
    intro y
    cases y with
    | nil => right; rfl
    | cons b bs =>
      show (if a.toNat < b.toNat then true
          else if b.toNat < a.toNat then false else pyStrLe as bs) = true ∨
        (if b.toNat < a.toNat then true
          else if a.toNat < b.toNat then false else pyStrLe bs as) = true
      rcases Nat.lt_trichotomy a.toNat b.toNat with h | h | h
      · left; rw [if_pos h]
      · rcases ih bs with h3 | h3
        · left
          rw [if_neg (show ¬a.toNat < b.toNat by omega),
            if_neg (show ¬b.toNat < a.toNat by omega)]
          exact h3
        · right
          rw [if_neg (show ¬b.toNat < a.toNat by omega),
            if_neg (show ¬a.toNat < b.toNat by omega)]
          exact h3
      · right; rw [if_pos h]

theorem pyStrLe_trans : ∀ x y z : List Char,
    pyStrLe x y = true → pyStrLe y z = true → pyStrLe x z = true := by
  intro x
  induction x with
  | nil => intro y z _ _; rfl
  | cons a as ih =>
    intro y z hxy hyz
    cases y with
    | nil => exact absurd hxy (by simp [pyStrLe])
    | cons b bs =>
      cases z with
      | nil => exact absurd hyz (by simp [pyStrLe])
      | cons c cs =>
        revert hxy hyz
        show (if a.toNat < b.toNat then true
            else if b.toNat < a.toNat then false else pyStrLe as bs) = true →
          (if b.toNat < c.toNat then true
            else if c.toNat < b.toNat then false else pyStrLe bs cs) = true →
          (if a.toNat < c.toNat then true
            else if c.toNat < a.toNat then false else pyStrLe as cs) = true
        intro hxy hyz
        rcases Nat.lt_trichotomy a.toNat b.toNat with h1 | h1 | h1
        · rcases Nat.lt_trichotomy b.toNat c.toNat with h2 | h2 | h2
          · rw [if_pos (show a.toNat < c.toNat by omega)]
          · rw [if_pos (show a.toNat < c.toNat by omega)]
          · rw [if_neg (show ¬b.toNat < c.toNat by omega), if_pos h2] at hyz
            cases hyz
        · rcases Nat.lt_trichotomy b.toNat c.toNat with h2 | h2 | h2
          · rw [if_pos (show a.toNat < c.toNat by omega)]
          · rw [if_neg (show ¬a.toNat < b.toNat by omega),
              if_neg (show ¬b.toNat < a.toNat by omega)] at hxy
            rw [if_neg (show ¬b.toNat < c.toNat by omega),
              if_neg (show ¬c.toNat < b.toNat by omega)] at hyz
            rw [if_neg (show ¬a.toNat < c.toNat by omega),
              if_neg (show ¬c.toNat < a.toNat by omega)]
            exact ih bs cs hxy hyz
          · rw [if_neg (show ¬b.toNat < c.toNat by omega), if_pos h2] at hyz
            cases hyz
        · rw [if_neg (show ¬a.toNat < b.toNat by omega), if_pos h1] at hxy
          cases hxy

/-- C8 counterexample: the spec's sidecar scenario uses a main file
`book.bin`, but `.bin` is not an accepted main-file extension — locate
raises the unknown-main-file-type error instead of returning the two files,
even with the populated `book.sdr` companion directory present. -/
theorem C8_counterexample :
    locate_book_datafiles sidecarFS ⟨"book.bin", true, [], []⟩ =
      .error "Unknown main file type. Must be azw8, ion, kfx, kfx-zip, kpf, or zip." := by
  rfl

/-- C8 (amended): when `locate_book_datafiles` returns normally the located
list is non-empty and sorted ascending by file name (`DataFile` ordering
compares names only); an empty collection raises the fatal
not-a-KFX-book error; and in the sidecar scenario with a recognized main
extension — `book.kfx` plus companion `book.sdr/extra.res` — both files
are returned sorted by name. -/
theorem C8_locate_postcondition :
    (∀ fs df res, locate_book_datafiles fs df = .ok res →
        res ≠ [] ∧ List.Sorted nameLe res)
    ∧ (∀ fs df, locate_collect fs df = .ok [] →
        locate_book_datafiles fs df =
          .error "No KFX containers found. This book is not in KFX format.")
    ∧ locate_book_datafiles sidecarFS mainKfx = .ok [mainKfx, extraRes] := by
  refine ⟨?_, ?_, ?_⟩
  · intro fs df res h
    unfold locate_book_datafiles at h
    cases hc : locate_collect fs df with
    | error e => rw [hc] at h; cases h
    | ok cs =>
      rw [hc] at h
      have h2 : (if cs = [] then
          Except.error "No KFX containers found. This book is not in KFX format."
        else Except.ok (List.insertionSort nameLe cs)) = Except.ok res := h
      by_cases hnil : cs = []
      · rw [if_pos hnil] at h2; cases h2
      · rw [if_neg hnil] at h2
        injection h2 with h1
        constructor
        · rw [← h1]
          intro hres
          have hlen := (List.perm_insertionSort nameLe cs).length_eq
          rw [hres] at hlen
          exact hnil (List.eq_nil_of_length_eq_zero hlen.symm)
        · rw [← h1]
          exact @List.sorted_insertionSort DataFile nameLe _
            ⟨fun a b => pyStrLe_total a.name.data b.name.data⟩
            ⟨fun a b c => pyStrLe_trans a.name.data b.name.data c.name.data⟩ cs
  · intro fs df h
    unfold locate_book_datafiles
    rw [h]
    rfl
  · rfl

/-- C8 witness: the amended sidecar scenario instantiates the general
postcondition — the two located files are a non-empty list sorted by name —
and an empty directory scan yields the fatal error. -/
theorem C8_locate_postcondition_witness :
    ([mainKfx, extraRes] ≠ [] ∧ List.Sorted nameLe [mainKfx, extraRes])
    ∧ locate_book_datafiles ⟨fun s => s == "emptydir", fun _ => []⟩
        ⟨"emptydir", true, [], []⟩ =
      .error "No KFX containers found. This book is not in KFX format." :=
  ⟨C8_locate_postcondition.1 sidecarFS mainKfx [mainKfx, extraRes]
      C8_locate_postcondition.2.2,
   C8_locate_postcondition.2.1 ⟨fun s => s == "emptydir", fun _ => []⟩
      ⟨"emptydir", true, [], []⟩ rfl⟩

/-- C9 counterexample: a failure inside the decode pipeline propagates out
of `convert_to_single_kfx` without `temp_file_cleanup` ever running — there
is no `try`/`finally`, so cleanup is not performed before control returns
to the caller on this path (it is left to the `atexit` handler), refuting
the claim that every conversion runs cleanup regardless of failure. -/
theorem C9_counterexample :
    (convert_to_single_kfx true (.error "container deserialization failed") false false
      (.ok []) ⟨false⟩).2.cleaned = false := by
  rfl

/-- C9 (amended): every conversion entry point runs `temp_file_cleanup`
before returning successfully; moreover, whenever the call performs a full
decode that completes (fragments initially empty, decode pipeline ok),
cleanup has already run inside `decode_book` before any later dictionary,
pre-publication or serialization failure propagates.  Only a failure inside
the decode pipeline itself escapes without cleanup. -/
theorem C9_cleanup :
    (∀ fe ds d p sr s r, (convert_to_single_kfx fe ds d p sr s).1 = .ok r →
        (convert_to_single_kfx fe ds d p sr s).2.cleaned = true)
    ∧ (∀ fe ds d p sr s, fe = true → ds = .ok () →
        (convert_to_single_kfx fe ds d p sr s).2.cleaned = true)
    ∧ (∀ fe ds sr s r, (convert_to_zip_unpack fe ds sr s).1 = .ok r →
        (convert_to_zip_unpack fe ds sr s).2.cleaned = true)
    ∧ (∀ fe ds sr s, fe = true → ds = .ok () →
        (convert_to_zip_unpack fe ds sr s).2.cleaned = true)
    ∧ (∀ fe ds er s r, (convert_to_epub fe ds er s).1 = .ok r →
        (convert_to_epub fe ds er s).2.cleaned = true)
    ∧ (∀ fe ds er s, fe = true → ds = .ok () →
        (convert_to_epub fe ds er s).2.cleaned = true) := by
  refine ⟨?_, ?_, ?_, ?_, ?_, ?_⟩
  · intro fe ds d p sr s r h
    unfold convert_to_single_kfx at h ⊢
    cases hd : decode_book_flow fe ds s with
    | mk res s1 =>
      rw [hd] at h
      cases res with
      | error e => cases h
      | ok u =>
        by_cases hdict : d = true
        · rw [hdict] at h ⊢
          simp at h
        · rw [Bool.not_eq_true] at hdict
          rw [hdict] at h ⊢
          by_cases hpre : p = true
          · rw [hpre] at h ⊢
            simp at h
          · rw [Bool.not_eq_true] at hpre
            rw [hpre] at h ⊢
            cases sr with
            | error e => cases h
            | ok rr => rfl
  · intro fe ds d p sr s hfe hds
    subst hfe; subst hds
    unfold convert_to_single_kfx decode_book_flow
    simp only [if_pos rfl]
    cases hdict : d
    · cases hpre : p
      · cases sr with
        | error e => rfl
        | ok rr => rfl
      · rfl
    · rfl
  · intro fe ds sr s r h
    unfold convert_to_zip_unpack at h ⊢
    cases hd : decode_book_flow fe ds s with
    | mk res s1 =>
      rw [hd] at h
      cases res with
      | error e => cases h
      | ok u =>
        cases sr with
        | error e => cases h
        | ok rr => rfl
  · intro fe ds sr s hfe hds
    subst hfe; subst hds
    unfold convert_to_zip_unpack decode_book_flow
    simp only [if_pos rfl]
    cases sr with
    | error e => rfl
    | ok rr => rfl
  · intro fe ds er s r h
    unfold convert_to_epub at h ⊢
    cases hd : decode_book_flow fe ds s with
    | mk res s1 =>
      rw [hd] at h
      cases res with
      | error e => cases h
      | ok u =>
        cases er with
        | error e => cases h
        | ok rr => rfl
  · intro fe ds er s hfe hds
    subst hfe; subst hds
    unfold convert_to_epub decode_book_flow
    simp only [if_pos rfl]
    cases er with
    | error e => rfl
    | ok rr => rfl

/-- C9 witness: concrete conversions — a successful single-KFX conversion
ends cleaned, and a full decode followed by a failing serialization still
ends cleaned for each entry point. -/
theorem C9_cleanup_witness :
    (convert_to_single_kfx false (.ok ()) false false (.ok [1]) ⟨false⟩).2.cleaned = true
    ∧ (convert_to_single_kfx true (.ok ()) true false (.error "dict") ⟨false⟩).2.cleaned = true
    ∧ (convert_to_zip_unpack false (.ok ()) (.ok [1]) ⟨false⟩).2.cleaned = true
    ∧ (convert_to_zip_unpack true (.ok ()) (.error "ser") ⟨false⟩).2.cleaned = true
    ∧ (convert_to_epub false (.ok ()) (.ok [1]) ⟨false⟩).2.cleaned = true
    ∧ (convert_to_epub true (.ok ()) (.error "epub") ⟨false⟩).2.cleaned = true :=
  ⟨C9_cleanup.1 false (.ok ()) false false (.ok [1]) ⟨false⟩ [1] rfl,
   C9_cleanup.2.1 true (.ok ()) true false (.error "dict") ⟨false⟩ rfl rfl,
   C9_cleanup.2.2.1 false (.ok ()) (.ok [1]) ⟨false⟩ [1] rfl,
   C9_cleanup.2.2.2.1 true (.ok ()) (.error "ser") ⟨false⟩ rfl rfl,
   C9_cleanup.2.2.2.2.1 false (.ok ()) (.ok [1]) ⟨false⟩ [1] rfl,
   C9_cleanup.2.2.2.2.2 true (.ok ()) (.error "epub") ⟨false⟩ rfl rfl⟩

/-- C10: evaluating the module at the failing input.  Injecting a logger
works (first conjunct), but `set_logger()` with no argument stores `None`
instead of deleting the attribute — `set_logger` tests `log is not None`,
which is always true since `log` is the module-level `LogCurrent` object —
so `get_current_logger` then returns Python `None` rather than the default
`logging` module the claim (and the dead `del` branch) intends. -/
theorem C10_set_logger_bug :
    get_current_logger (set_logger (some (.custom 0)) none) = some (.custom 0)
    ∧ get_current_logger (set_logger none (set_logger (some (.custom 0)) none)) = none
    ∧ get_current_logger (set_logger none (set_logger (some (.custom 0)) none)) ≠
        some .loggingModule := by
  refine ⟨rfl, rfl, ?_⟩
  decide

/-- C4 witness: concrete instantiations of every tier of the amended
chain — metadata hit, image sniff hit, no extension at all, and the
font-sniff path. -/
theorem C4_extension_chain_witness :
    resource_metadata_extension (.struct [("$165", .str "fontres"), ("$162", .str "font/woff")])
      = claim_metadata_extension (.struct [("$165", .str "fontres"), ("$162", .str "font/woff")])
    ∧ serialize_entry_name [("img1", ".png")] "$417" "img1" [0] = "img1..png"
    ∧ serialize_entry_name [] "$417" "img2" [0xFF, 0xD8, 0xFF] = "img2..jpg"
    ∧ serialize_entry_name [] "$417" "img3" [0] = "img3"
    ∧ serialize_entry_name [] "$418" "fnt" [0x77, 0x4F, 0x46, 0x46] = "fnt..woff" :=
  ⟨C4_extension_chain.1 (.struct [("$165", .str "fontres"), ("$162", .str "font/woff")]),
   C4_extension_chain.2.1 [("img1", ".png")] "img1" [0] ".png" (by decide) rfl,
   C4_extension_chain.2.2.1 [] "img2" [0xFF, 0xD8, 0xFF] (by decide) rfl (by decide),
   C4_extension_chain.2.2.2.1 [] "img3" [0] (by decide) rfl rfl,
   C4_extension_chain.2.2.2.2.1 [] "fnt" [0x77, 0x4F, 0x46, 0x46] (by decide)⟩
